import Mathlib

/-
  Verification development for the moveit2 servoing engine.

  Shallow embedding of:
  - src/moveit_ros/moveit_servo/src/servo_calcs.cpp  (ServoCalcs)
  - src/moveit_core/trajectory_processing/src/ruckig_traj_smoothing.cpp (RuckigSmoothing)

  Modelling conventions:
  - Doubles are modelled as rationals (ℚ).  IEEE NaN is modelled by `Option ℚ`
    where `none` plays the role of NaN, in the command-validation code where
    the source explicitly tests `std::isnan`.
  - External collaborators (the robot model, the smoothing plugin, Eigen's SVD,
    the Ruckig step generator, the group distance metric) are passed in as
    function parameters or appear as already-computed inputs, exactly at the
    interface the source uses them.
  - Out-of-bounds `std::vector::at` accesses that the source's callers rule out
    are modelled with `List.getD`; the theorems carry the corresponding length
    hypotheses.
-/

set_option autoImplicit false

/-- Status codes published by servo (moveit_servo StatusCode). -/
inductive StatusCode where
  | NO_WARNING
  | DECELERATE_FOR_COLLISION
  | HALT_FOR_COLLISION
  | DECELERATE_FOR_SINGULARITY
  | HALT_FOR_SINGULARITY
  | JOINT_BOUND
  deriving DecidableEq, Inhabited

/-- The two servoing modes dispatched by internalServoUpdate. -/
inductive ServoType where
  | CARTESIAN_SPACE
  | JOINT_SPACE
  deriving DecidableEq, Inhabited

/-- sensor_msgs::msg::JointState as used by ServoCalcs: parallel name /
position / velocity sequences. -/
structure JointState where
  name : List String
  position : List ℚ
  velocity : List ℚ
  deriving DecidableEq, Inhabited

/-- trajectory_msgs::msg::JointTrajectoryPoint (time_from_start is fixed at
publish_period everywhere it is written and carries no information for the
claims). -/
structure TrajPoint where
  positions : List ℚ
  velocities : List ℚ
  accelerations : List ℚ
  deriving DecidableEq, Inhabited

/-- The ServoParameters fields read by the embedded code paths. -/
structure ServoParams where
  publish_period : ℚ
  command_in_type : String
  publish_joint_positions : Bool
  publish_joint_velocities : Bool
  publish_joint_accelerations : Bool
  joint_limit_margin : ℚ
  halt_all_joints_in_joint_mode : Bool
  halt_all_joints_in_cartesian_mode : Bool
  lower_singularity_threshold : ℚ
  hard_stop_singularity_threshold : ℚ
  deriving DecidableEq, Inhabited

/-- A joint of the active joint group.  `bounds = some (min_position,
max_position)` when the robot model defines position limits for the joint
(`getVariableBoundsMsg` non-empty); `none` models a joint without limits. -/
structure JointModel where
  name : String
  bounds : Option (ℚ × ℚ)
  deriving DecidableEq, Inhabited

/-- geometry_msgs::msg::TwistStamped.  Each component is `Option ℚ`: `none`
models IEEE NaN (the only float special value the source tests for). -/
structure TwistMsg where
  frame_id : String
  stamp : ℚ
  linear_x : Option ℚ
  linear_y : Option ℚ
  linear_z : Option ℚ
  angular_x : Option ℚ
  angular_y : Option ℚ
  angular_z : Option ℚ
  deriving DecidableEq, Inhabited

/-- control_msgs::msg::JointJog. -/
structure JointJogMsg where
  stamp : ℚ
  joint_names : List String
  velocities : List (Option ℚ)
  deriving DecidableEq, Inhabited

/-- STOPPED_VELOCITY_EPS = 1e-4 rad/s (servo_calcs.cpp). -/
def STOPPED_VELOCITY_EPS : ℚ := 1 / 10000

/-- std::isnan on the Option-ℚ model of a double. -/
def isnanQ (v : Option ℚ) : Bool :=
  v.isNone

/-- `msg.twist.<c> != 0.0` for one component; NaN compares unequal to 0. -/
def twistComponentNonzero (v : Option ℚ) : Bool :=
  match v with
  | none => true
  | some q => decide (q ≠ 0)

/-- isNonZero(TwistStamped) helper of servo_calcs.cpp. -/
def isNonZeroTwist (msg : TwistMsg) : Bool :=
  twistComponentNonzero msg.linear_x || twistComponentNonzero msg.linear_y ||
  twistComponentNonzero msg.linear_z || twistComponentNonzero msg.angular_x ||
  twistComponentNonzero msg.angular_y || twistComponentNonzero msg.angular_z

/-- `delta == 0.0` for one jog component; NaN compares unequal to 0. -/
def jogComponentZero (v : Option ℚ) : Bool :=
  match v with
  | none => false
  | some q => decide (q = 0)

/-- isNonZero(JointJog) helper of servo_calcs.cpp: all_zeros accumulated with
`&=` over the velocities, then negated. -/
def isNonZeroJog (msg : JointJogMsg) : Bool :=
  !(msg.velocities.foldl (fun all_zeros delta => all_zeros && jogComponentZero delta) true)

/-- ServoCalcs::checkValidCommand(JointJog): reject iff some velocity is NaN.
The source loops and returns false at the first NaN, else true. -/
def checkValidCommandJog (cmd : JointJogMsg) : Bool :=
  cmd.velocities.all (fun velocity => !isnanQ velocity)

/-- `fabs(component) > 1` on a non-NaN component (reached only after the NaN
check in the source, so the `none` case is unreachable there). -/
def twistComponentAbsGtOne (v : Option ℚ) : Bool :=
  match v with
  | none => false
  | some q => decide (1 < |q|)

/-- ServoCalcs::checkValidCommand(TwistStamped): reject on any NaN component,
then, in "unitless" mode only, reject if any component has |value| > 1. -/
def checkValidCommandTwist (command_in_type : String) (cmd : TwistMsg) : Bool :=
  if isnanQ cmd.linear_x || isnanQ cmd.linear_y || isnanQ cmd.linear_z ||
     isnanQ cmd.angular_x || isnanQ cmd.angular_y || isnanQ cmd.angular_z then
    false
  else if command_in_type == "unitless" &&
      (twistComponentAbsGtOne cmd.linear_x || twistComponentAbsGtOne cmd.linear_y ||
       twistComponentAbsGtOne cmd.linear_z || twistComponentAbsGtOne cmd.angular_x ||
       twistComponentAbsGtOne cmd.angular_y || twistComponentAbsGtOne cmd.angular_z) then
    false
  else
    true

/-- ServoCalcs::velocityScalingFactorForSingularity, from the point where the
condition number `ini_condition` (σ₁/σ_min of the SVD of the Jacobian) and the
sign-resolved dot product `dot = vector_toward_singularity · commanded_velocity`
have been computed (the SVD itself and the sign-ambiguity look-ahead are Eigen
floating-point linear algebra, taken as inputs here).  Returns the velocity
scale together with the updated status member. -/
def velocityScalingFactorForSingularity (lower_singularity_threshold
    hard_stop_singularity_threshold ini_condition dot : ℚ)
    (status : StatusCode) : ℚ × StatusCode :=
  if 0 < dot then
    if lower_singularity_threshold < ini_condition ∧
       ini_condition < hard_stop_singularity_threshold then
      (1 - (ini_condition - lower_singularity_threshold) /
            (hard_stop_singularity_threshold - lower_singularity_threshold),
       StatusCode.DECELERATE_FOR_SINGULARITY)
    else if hard_stop_singularity_threshold < ini_condition then
      (0, StatusCode.HALT_FOR_SINGULARITY)
    else
      (1, status)
  else
    (1, status)

/-- The command-receipt state mutated by the subscription callbacks. -/
structure CommandBufferState where
  latest_twist : Option TwistMsg
  latest_twist_nonzero : Bool
  latest_twist_stamp : ℚ
  latest_joint : Option JointJogMsg
  latest_joint_nonzero : Bool
  latest_joint_stamp : ℚ
  new_input_cmd : Bool
  deriving DecidableEq, Inhabited

/-- ServoCalcs::twistStampedCB: store the message, recompute the nonzero flag,
advance latest_twist_command_stamp_ only for a nonzero stamp, flag new input. -/
def twistStampedCB (st : CommandBufferState) (msg : TwistMsg) : CommandBufferState :=
  { st with
    latest_twist := some msg
    latest_twist_nonzero := isNonZeroTwist msg
    latest_twist_stamp := if msg.stamp ≠ 0 then msg.stamp else st.latest_twist_stamp
    new_input_cmd := true }

/-- ServoCalcs::jointCmdCB: same shape as twistStampedCB for JointJog. -/
def jointCmdCB (st : CommandBufferState) (msg : JointJogMsg) : CommandBufferState :=
  { st with
    latest_joint := some msg
    latest_joint_nonzero := isNonZeroJog msg
    latest_joint_stamp := if msg.stamp ≠ 0 then msg.stamp else st.latest_joint_stamp
    new_input_cmd := true }

/-- The wait_for_servo_commands_ update in calculateSingleIteration: WAITING
persists exactly while both locally copied commands still carry stamp 0. -/
def waitForServoCommandsUpdate (twist_stamped_cmd : TwistMsg)
    (joint_servo_cmd : JointJogMsg) : Bool :=
  decide (twist_stamped_cmd.stamp = 0) && decide (joint_servo_cmd.stamp = 0)

/-- ServoCalcs::removeDimension: shift the rows below `row_to_remove` up by one
and shrink by one row; on the Jacobian (a row list) and on delta_x this is
`take row ++ drop (row+1)` (when `row_to_remove` is the last row the block
copies are empty and conservativeResize alone drops it, with the same result). -/
def removeDimension (jacobian : List (List ℚ)) (delta_x : List ℚ)
    (row_to_remove : ℕ) : List (List ℚ) × List ℚ :=
  (jacobian.take row_to_remove ++ jacobian.drop (row_to_remove + 1),
   delta_x.take row_to_remove ++ delta_x.drop (row_to_remove + 1))

/-- The body of ServoCalcs::removeDriftDimensions' descending loop: `dimension`
runs from the initial row count minus one down to 0; a row is removed when its
drift flag is set and the current matrix still has more than one row. -/
def removeDriftLoop (drift_dimensions : List Bool) :
    ℕ → List (List ℚ) × List ℚ → List (List ℚ) × List ℚ
  | 0, (jacobian, delta_x) =>
      if drift_dimensions.getD 0 false = true ∧ 1 < jacobian.length then
        removeDimension jacobian delta_x 0
      else (jacobian, delta_x)
  | d + 1, (jacobian, delta_x) =>
      removeDriftLoop drift_dimensions d
        (if drift_dimensions.getD (d + 1) false = true ∧ 1 < jacobian.length then
          removeDimension jacobian delta_x (d + 1)
        else (jacobian, delta_x))

/-- ServoCalcs::removeDriftDimensions: iterate from the highest row index
downward (the loop start `matrix.rows() - 1` is evaluated once, before any
removal). -/
def removeDriftDimensions (drift_dimensions : List Bool) (matrix : List (List ℚ))
    (delta_x : List ℚ) : List (List ℚ) × List ℚ :=
  match matrix.length with
  | 0 => (matrix, delta_x)
  | n + 1 => removeDriftLoop drift_dimensions n (matrix, delta_x)

/-- Refinement-side definition following the claim's words: keep exactly the
rows whose drift flag is false, in their original relative order. -/
def keptByDrift {α : Type} (drift_dimensions : List Bool) (xs : List α) : List α :=
  (xs.zip drift_dimensions).filterMap (fun p => if p.2 then none else some p.1)

/-- The first index of `s` in a name list: the manual index scan of
enforcePositionLimits and the `std::find`/`std::distance` lookups of
enforcePositionLimits and suddenHalt all return the first match. -/
def findFirstIdx (s : String) : List String → Option ℕ
  | [] => none
  | n :: rest => if n = s then some 0 else (findFirstIdx s rest).map (fun c => c + 1)

/-- moveit::core::JointModel::satisfiesPositionBounds(&angle, margin): the
angle satisfies the (margin-widened) bounds; a joint without defined limits
always satisfies them.  ServoCalcs::enforcePositionLimits calls it with
`margin = -joint_limit_margin`, which narrows the interval instead. -/
def satisfiesPositionBounds (joint : JointModel) (angle margin : ℚ) : Bool :=
  match joint.bounds with
  | none => true
  | some b => decide (b.1 - margin ≤ angle ∧ angle ≤ b.2 + margin)

/-- The loop body of ServoCalcs::enforcePositionLimits.  `prev_angle` threads
the C++ `joint_angle` local declared outside the loop: when a joint's name is
absent from the joint state the stale previous value is reused.  Both name
scans (the manual index loop and the later `std::find`) return the first
matching index. -/
def enforcePositionLimitsGo (p : ServoParams) (joint_state : JointState) :
    ℚ → List JointModel → List JointModel
  | _, [] => []
  | prev_angle, joint :: rest =>
      let joint_angle :=
        match findFirstIdx joint.name joint_state.name with
        | some c => joint_state.position.getD c 0
        | none => prev_angle
      let candidate : Bool :=
        if satisfiesPositionBounds joint joint_angle (-p.joint_limit_margin) then
          false
        else
          match joint.bounds with
          | none => false
          | some b =>
              let joint_idx := (findFirstIdx joint.name joint_state.name).getD
                joint_state.name.length
              let vel := joint_state.velocity.getD joint_idx 0
              decide ((vel < 0 ∧ joint_angle < b.1 + p.joint_limit_margin) ∨
                      (0 < vel ∧ b.2 - p.joint_limit_margin < joint_angle))
      (if candidate then [joint] else []) ++ enforcePositionLimitsGo p joint_state joint_angle rest

/-- ServoCalcs::enforcePositionLimits: collect, in iteration order, the active
joints whose position is inside the margin band of a defined bound while the
pending velocity pushes further toward or past that bound. -/
def enforcePositionLimits (p : ServoParams) (joint_state : JointState)
    (active_joints : List JointModel) : List JointModel :=
  enforcePositionLimitsGo p joint_state 0 active_joints

/-- One step of ServoCalcs::suddenHalt: locate the joint by name (first match)
and, if present, reset its position to the pre-update snapshot and zero its
velocity. -/
def suddenHaltOne (original_joint_state : JointState) (joint_state : JointState)
    (joint_to_halt : JointModel) : JointState :=
  match findFirstIdx joint_to_halt.name joint_state.name with
  | none => joint_state
  | some joint_index =>
      { joint_state with
        position := joint_state.position.set joint_index
          (original_joint_state.position.getD joint_index 0)
        velocity := joint_state.velocity.set joint_index 0 }

/-- ServoCalcs::suddenHalt over the whole list of joints to halt. -/
def suddenHalt (original_joint_state : JointState) (joint_state : JointState)
    (joints_to_halt : List JointModel) : JointState :=
  joints_to_halt.foldl (suddenHaltOne original_joint_state) joint_state

/-- ServoCalcs::applyJointUpdate: size check, increment positions by
delta_theta, run the smoothing plugin on the positions in place, recompute
velocities against the original snapshot.  `none` models the `return false`
path. -/
def applyJointUpdate (p : ServoParams) (smoother : List ℚ → List ℚ)
    (original_joint_state : JointState) (delta_theta : List ℚ)
    (joint_state : JointState) : Option JointState :=
  if joint_state.position.length ≠ delta_theta.length ∨
     joint_state.velocity.length ≠ joint_state.position.length then
    none
  else
    let incremented := List.zipWith (fun pos d => pos + d) joint_state.position delta_theta
    let smoothed := smoother incremented
    let velocity := List.zipWith
      (fun pos orig => (pos - orig) / p.publish_period)
      smoothed original_joint_state.position
    some { joint_state with position := smoothed, velocity := velocity }

/-- The collision-scale status block at the top of
ServoCalcs::internalServoUpdate. -/
def collisionStatusUpdate (collision_scale : ℚ) (status : StatusCode) : StatusCode :=
  if 0 < collision_scale ∧ collision_scale < 1 then
    StatusCode.DECELERATE_FOR_COLLISION
  else if collision_scale = 0 then
    StatusCode.HALT_FOR_COLLISION
  else
    status

/-- The position-limit stage of ServoCalcs::internalServoUpdate: if any joints
were selected, set JOINT_BOUND and halt either just the selected joints (when
the mode's halt-all flag is off) or every active joint. -/
def positionLimitHaltStage (p : ServoParams) (active_joints : List JointModel)
    (original_joint_state joint_state : JointState) (servo_type : ServoType)
    (status : StatusCode) : JointState × StatusCode :=
  let joints_to_halt := enforcePositionLimits p joint_state active_joints
  if joints_to_halt = [] then
    (joint_state, status)
  else
    ((if (servo_type = ServoType.JOINT_SPACE ∧ ¬p.halt_all_joints_in_joint_mode) ∨
         (servo_type = ServoType.CARTESIAN_SPACE ∧ ¬p.halt_all_joints_in_cartesian_mode) then
        suddenHalt original_joint_state joint_state joints_to_halt
      else
        suddenHalt original_joint_state joint_state active_joints),
     StatusCode.JOINT_BOUND)

/-- ServoCalcs::composeJointTrajMessage: one point carrying positions and/or
velocities per the publish flags, and all-zero accelerations of length
num_joints_ when accelerations are published. -/
def composeJointTrajMessage (p : ServoParams) (num_joints : ℕ)
    (joint_state : JointState) : List TrajPoint :=
  [{ positions := if p.publish_joint_positions then joint_state.position else []
     velocities := if p.publish_joint_velocities then joint_state.velocity else []
     accelerations :=
       if p.publish_joint_accelerations then List.replicate num_joints 0 else [] }]

/-- The outcome of one internalServoUpdate call.  `delta_theta` is the delta
vector after collision scaling and the (otherwise unused) enforceVelocityLimits
pass, kept for fidelity: the source assigns its result back to delta_theta but
never reads it again. -/
structure ServoOutcome where
  ok : Bool
  status : StatusCode
  joint_state : JointState
  traj : List TrajPoint
  delta_theta : List ℚ
  deriving DecidableEq, Inhabited

/-- ServoCalcs::internalServoUpdate.  `smoother` is the loaded smoothing
plugin's doSmoothing; `evl` is enforceVelocityLimits from
moveit_servo/enforce_limits.hpp (not among the sources; its result is dead in
this function).  The gazebo redundant-point insertion is omitted
(use_gazebo = false). -/
def internalServoUpdate (p : ServoParams) (smoother : List ℚ → List ℚ)
    (evl : List ℚ → List ℚ) (active_joints : List JointModel)
    (original_joint_state : JointState) (collision_velocity_scale : ℚ)
    (status : StatusCode) (delta_theta : List ℚ) (servo_type : ServoType) :
    ServoOutcome :=
  let internal_joint_state := original_joint_state
  let collision_scale := collision_velocity_scale
  let status1 := collisionStatusUpdate collision_scale status
  let delta1 := delta_theta.map (fun d => d * collision_scale)
  match applyJointUpdate p smoother original_joint_state delta1 internal_joint_state with
  | none =>
      { ok := false, status := status1, joint_state := internal_joint_state,
        traj := [], delta_theta := delta1 }
  | some updated_state =>
      let delta2 := evl delta1
      let staged := positionLimitHaltStage p active_joints original_joint_state
        updated_state servo_type status1
      { ok := true, status := staged.2, joint_state := staged.1,
        traj := composeJointTrajMessage p active_joints.length staged.1,
        delta_theta := delta2 }

/-- The velocity loop of ServoCalcs::filteredHalt, before the snap-to-zero:
velocity i = (smoothed position i − original position i) / publish_period. -/
def rawHaltVelocities (p : ServoParams) (smoothed : List ℚ)
    (original_joint_state : JointState) (num_joints : ℕ) : List ℚ :=
  (List.range num_joints).map
    (fun i => (smoothed.getD i 0 - original_joint_state.position.getD i 0) / p.publish_period)

/-- ServoCalcs::filteredHalt: clear the trajectory and emit a single point
whose positions are the smoothed original snapshot.  When velocities are
published, done_stopping_ is cleared by any velocity strictly above
STOPPED_VELOCITY_EPS (a signed comparison in the source), and when it
survives, the velocities are overwritten with zeros.  Returns the emitted
point list together with the done_stopping_ flag, or `none` for the
out-of-range vector access the acceleration loop performs when velocities are
not published but accelerations are. -/
def filteredHalt (p : ServoParams) (smoother : List ℚ → List ℚ) (num_joints : ℕ)
    (original_joint_state : JointState) : Option (List TrajPoint × Bool) :=
  let positions := smoother original_joint_state.position
  let veldone :=
    if p.publish_joint_velocities then
      let raw := rawHaltVelocities p positions original_joint_state num_joints
      let done_stopping := raw.all (fun v => decide (v ≤ STOPPED_VELOCITY_EPS))
      ((if done_stopping then List.replicate num_joints (0 : ℚ) else raw), done_stopping)
    else
      ([], true)
  if p.publish_joint_accelerations ∧ ¬p.publish_joint_velocities ∧ num_joints ≠ 0 then
    none
  else
    let accelerations :=
      if p.publish_joint_accelerations then
        (List.range num_joints).map
          (fun i => (veldone.1.getD i 0 - original_joint_state.velocity.getD i 0) /
            p.publish_period)
      else []
    some ([{ positions := positions, velocities := veldone.1,
             accelerations := accelerations }], veldone.2)

/-- ruckig::InputParameter fields used by the smoothing loop. -/
structure RuckigInput where
  current_position : List ℚ
  current_velocity : List ℚ
  current_acceleration : List ℚ
  target_position : List ℚ
  target_velocity : List ℚ
  target_acceleration : List ℚ
  deriving DecidableEq, Inhabited

/-- ruckig::OutputParameter fields used by the smoothing loop. -/
structure RuckigOutput where
  new_position : List ℚ
  new_velocity : List ℚ
  new_acceleration : List ℚ
  deriving DecidableEq, Inhabited

/-- ruckig::Result values the loop distinguishes. -/
inductive RuckigResult where
  | Working
  | Finished
  | ErrorResult
  deriving DecidableEq, Inhabited

/-- One waypoint of the input trajectory, as read through
getVariablePosition / Velocity / Acceleration at the group's variable indices. -/
structure WaypointState where
  position : List ℚ
  velocity : List ℚ
  acceleration : List ℚ
  deriving DecidableEq, Inhabited

/-- DEFAULT_RUCKIG_TIMESTEP = 0.001 s. -/
def DEFAULT_RUCKIG_TIMESTEP : ℚ := 1 / 1000

/-- MINIMUM_VELOCITY_SEARCH_MAGNITUDE = 0.01 rad/s. -/
def MINIMUM_VELOCITY_SEARCH_MAGNITUDE : ℚ := 1 / 100

/-- IDENTICAL_POSITION_EPSILON = 1e-3 rad. -/
def IDENTICAL_POSITION_EPSILON : ℚ := 1 / 1000

/-- DBL_MAX, the initial value of velocity_magnitude. -/
def DBL_MAX : ℚ := (2 ^ 53 - 1) * 2 ^ 971

/-- RuckigSmoothing::checkForLaggingMotion: scan the joints in order and
report lagging at the first joint whose ratio new_velocity / target_velocity
is below 1.  The source divides with no guard; reaching a joint whose target
velocity is zero divides by zero, modelled as `none`. -/
def checkForLaggingMotion : List ℚ → List ℚ → Option Bool
  | new_vel :: new_rest, target_vel :: target_rest =>
      if target_vel = 0 then none
      else if new_vel / target_vel < 1 then some true
      else checkForLaggingMotion new_rest target_rest
  | _, _ => some false

/-- The backward-motion branch of RuckigSmoothing::applySmoothing's inner
loop: each target velocity is scaled by 0.9 first, and the target acceleration
is then recomputed from the already-scaled target velocity:
(0.9·target_velocity − new_velocity) / timestep. -/
def retractTargetVelocity (timestep : ℚ) (ruckig_input : RuckigInput)
    (ruckig_output : RuckigOutput) : RuckigInput :=
  { ruckig_input with
    target_velocity := ruckig_input.target_velocity.map (fun v => v * (9 / 10))
    target_acceleration := List.zipWith
      (fun target_vel new_vel => (target_vel * (9 / 10) - new_vel) / timestep)
      ruckig_input.target_velocity ruckig_output.new_velocity }

/-- RuckigSmoothing::getTargetVelocityMagnitude accumulates the sum of squared
target velocities and returns its square root.  Over ℚ we keep the squared
magnitude; every comparison `sqrt s < c` with `c > 0` in the source is encoded
as `s < c²`, which is equivalent since sqrt is strictly monotone on the
nonnegative reals and `s ≥ 0` is a sum of squares. -/
def getTargetVelocityMagnitudeSq (ruckig_input : RuckigInput) : ℚ :=
  (ruckig_input.target_velocity.map (fun v => v * v)).sum

/-- RuckigSmoothing::getNextRuckigInput: feed the output of the previous
timestep back as the current state and re-load the target state from the next
waypoint (this runs at the end of every loop iteration, so it also overwrites
a freshly retracted target velocity). -/
def getNextRuckigInput (ruckig_output : RuckigOutput)
    (target_waypoint : WaypointState) (ruckig_input : RuckigInput) : RuckigInput :=
  { ruckig_input with
    current_position := ruckig_output.new_position
    current_velocity := ruckig_output.new_velocity
    current_acceleration := ruckig_output.new_acceleration
    target_position := target_waypoint.position
    target_velocity := target_waypoint.velocity
    target_acceleration := target_waypoint.acceleration }

/-- What one pass of the inner while loop of RuckigSmoothing::applySmoothing
does after the ruckig update call: fail, or continue with an updated input,
an updated velocity magnitude, whether a waypoint was appended to the output,
and whether the generator reported Finished. -/
inductive BodyOutcome where
  | fail
  | step (next_input : RuckigInput) (next_velocity_magnitude_sq : ℚ)
      (emitted : Bool) (finished : Bool)
  deriving DecidableEq, Inhabited

/-- One iteration of the inner while loop of RuckigSmoothing::applySmoothing,
from after `ruckig_ptr->update` (whose result `ruckig_output` / `res` is the
external Ruckig step generator's):  check for lagging motion; if lagging,
retract the target velocity and recompute the magnitude; return `false` from
applySmoothing when the magnitude drops below
MINIMUM_VELOCITY_SEARCH_MAGNITUDE; append a waypoint only when not lagging and
the generator is Working or Finished; finally rebuild the input for the next
pass via getNextRuckigInput.  `none` models the unguarded division by zero in
checkForLaggingMotion. -/
def ruckigIterationBody (ruckig_input : RuckigInput)
    (velocity_magnitude_sq : ℚ) (ruckig_output : RuckigOutput)
    (res : RuckigResult) (target_waypoint : WaypointState) : Option BodyOutcome :=
  match checkForLaggingMotion ruckig_output.new_velocity ruckig_input.target_velocity with
  | none => none
  | some backward_motion_detected =>
      let input1 :=
        if backward_motion_detected then
          retractTargetVelocity DEFAULT_RUCKIG_TIMESTEP ruckig_input ruckig_output
        else ruckig_input
      let magnitude_sq :=
        if backward_motion_detected then getTargetVelocityMagnitudeSq input1
        else velocity_magnitude_sq
      if magnitude_sq < MINIMUM_VELOCITY_SEARCH_MAGNITUDE ^ 2 then
        some BodyOutcome.fail
      else
        some (BodyOutcome.step (getNextRuckigInput ruckig_output target_waypoint input1)
          magnitude_sq
          (decide (backward_motion_detected = false ∧
            (res = RuckigResult.Working ∨ res = RuckigResult.Finished)))
          (decide (res = RuckigResult.Finished)))

/-- RuckigSmoothing::checkForIdenticalWaypoints: the group-space distance
(`RobotState::distance`, an external robot-model metric passed in as `dist`)
is at most IDENTICAL_POSITION_EPSILON. -/
def checkForIdenticalWaypoints (dist : WaypointState → WaypointState → ℚ)
    (prev_waypoint target_waypoint : WaypointState) : Bool :=
  decide (dist prev_waypoint target_waypoint ≤ IDENTICAL_POSITION_EPSILON)

/-- The repeated-waypoint loop of RuckigSmoothing::applySmoothing.  A
trajectory is a list of (waypoint, duration-from-previous) pairs.  The loop
bound `num_waypoints - 1` is captured before the loop; each non-identical pair
(wp i, wp i+1) makes the loop append a copy of waypoint i (with its own
duration) to the end of the very trajectory being iterated — it removes
nothing.  Since appends happen past the captured bound, the reads stay inside
the original prefix. -/
def removeRepeatedWaypoints (dist : WaypointState → WaypointState → ℚ)
    (trajectory : List (WaypointState × ℚ)) : List (WaypointState × ℚ) :=
  (List.range (trajectory.length - 1)).foldl
    (fun acc waypoint_idx =>
      if checkForIdenticalWaypoints dist (acc.getD waypoint_idx default).1
          (acc.getD (waypoint_idx + 1) default).1 then
        acc
      else
        acc ++ [acc.getD waypoint_idx default])
    trajectory

/-- Modelled from the spec: robot_trajectory::RobotTrajectory::
getAverageSegmentDuration is not among the sources; the spec calls this
quantity "the input's average segment duration", i.e. the total of the
durations-from-previous divided by the number of segments. -/
def averageSegmentDuration (trajectory : List (WaypointState × ℚ)) : ℚ :=
  if trajectory.length ≤ 1 then 0
  else (trajectory.map Prod.snd).sum / ((trajectory.length : ℚ) - 1)

/-- The sanitization prefix of RuckigSmoothing::applySmoothing, up to the
point where the per-waypoint generator loop starts: fail with fewer than two
waypoints, unwind (external robot-trajectory API, passed in), run the
repeated-waypoint loop, re-count and fail again below two waypoints, fail when
the average segment duration is below DEFAULT_RUCKIG_TIMESTEP; otherwise hand
the resulting waypoint sequence to the generator loop. -/
def applySmoothingChecks (dist : WaypointState → WaypointState → ℚ)
    (unwind : List (WaypointState × ℚ) → List (WaypointState × ℚ))
    (trajectory : List (WaypointState × ℚ)) : Option (List (WaypointState × ℚ)) :=
  if trajectory.length < 2 then none
  else
    let t1 := removeRepeatedWaypoints dist (unwind trajectory)
    if t1.length < 2 then none
    else if averageSegmentDuration t1 < DEFAULT_RUCKIG_TIMESTEP then none
    else some t1

/-- The per-joint candidate test of enforcePositionLimits, specialised to a
joint whose name occurs in the joint state (the threaded previous angle is
then irrelevant).  Used to characterise the loop's result. -/
def positionLimitCandidate (p : ServoParams) (joint_state : JointState)
    (joint : JointModel) : Bool :=
  match findFirstIdx joint.name joint_state.name with
  | none => false
  | some c =>
      let joint_angle := joint_state.position.getD c 0
      if satisfiesPositionBounds joint joint_angle (-p.joint_limit_margin) then
        false
      else
        match joint.bounds with
        | none => false
        | some b =>
            let vel := joint_state.velocity.getD
              ((findFirstIdx joint.name joint_state.name).getD joint_state.name.length) 0
            decide ((vel < 0 ∧ joint_angle < b.1 + p.joint_limit_margin) ∨
                    (0 < vel ∧ b.2 - p.joint_limit_margin < joint_angle))

section HelperLemmas

/-- Dividing pointwise differences of a list with itself yields zeros. -/
theorem zipWith_sub_div_self (l : List ℚ) (T : ℚ) :
    List.zipWith (fun pos orig => (pos - orig) / T) l l = List.replicate l.length 0 := by
  induction l with
  | nil => rfl
  | cons a as ih => simp [List.replicate_succ, ih]

/-- Adding a zero-scaled delta changes nothing (equal lengths). -/
theorem zipWith_add_mapZero (l m : List ℚ) (h : l.length = m.length) :
    List.zipWith (fun pos d => pos + d) l (m.map (fun d => d * 0)) = l := by
  induction l generalizing m with
  | nil => rfl
  | cons a as ih =>
      cases m with
      | nil => simp at h
      | cons b bs =>
          simp only [List.map_cons, List.zipWith_cons_cons]
          rw [mul_zero, add_zero]
          simp only [List.length_cons, Nat.succ_inj] at h
          rw [ih bs h]

/-- Reading a replicated zero list (with default 0) gives zero at every
index. -/
theorem getD_replicate_zero (n i : ℕ) : (List.replicate n (0 : ℚ))[i]?.getD 0 = 0 := by
  rcases lt_or_le i n with h | h
  · simp [List.getElem?_replicate, h]
  · rw [List.getElem?_eq_none (by simpa using h)]
    rfl

end HelperLemmas

/-- C1 counterexample input: lower = 30, hard_stop = 100, κ = 100 (exactly the
hard-stop threshold), dot = 1 > 0. -/
theorem C1_counterexample :
    velocityScalingFactorForSingularity 30 100 100 1 StatusCode.NO_WARNING
      = (1, StatusCode.NO_WARNING) ∧
    velocityScalingFactorForSingularity 30 100 100 1 StatusCode.NO_WARNING
      ≠ (0, StatusCode.HALT_FOR_SINGULARITY) := by
  constructor <;> norm_num [velocityScalingFactorForSingularity]

/-- C1 (amended): for a Cartesian servo cycle moving toward the singularity
(dot = uₙ·ṽ > 0) with lower_singularity_threshold < hard_stop_singularity_threshold:
the singularity velocity scale is 1 when κ ≤ lower; it equals the linear ramp
1 − (κ − lower)/(hard − lower) with status DECELERATE_FOR_SINGULARITY strictly
between the thresholds; it is 0 with status HALT_FOR_SINGULARITY for κ
strictly above hard_stop; exactly at κ = hard_stop the scale is 1 (the halt
branch requires κ > hard_stop); and the scale is monotone non-increasing in κ
strictly between the thresholds. -/
theorem C1_amended (lower hard κ κ₁ κ₂ dot : ℚ) (st : StatusCode)
    (hlh : lower < hard) (hdot : 0 < dot) :
    (κ ≤ lower →
      velocityScalingFactorForSingularity lower hard κ dot st = (1, st)) ∧
    (lower < κ → κ < hard →
      velocityScalingFactorForSingularity lower hard κ dot st
        = (1 - (κ - lower) / (hard - lower), StatusCode.DECELERATE_FOR_SINGULARITY)) ∧
    (hard < κ →
      velocityScalingFactorForSingularity lower hard κ dot st
        = (0, StatusCode.HALT_FOR_SINGULARITY)) ∧
    (κ = hard →
      velocityScalingFactorForSingularity lower hard κ dot st = (1, st)) ∧
    (lower < κ₁ → κ₁ ≤ κ₂ → κ₂ < hard →
      (velocityScalingFactorForSingularity lower hard κ₂ dot st).1
        ≤ (velocityScalingFactorForSingularity lower hard κ₁ dot st).1) := by
  refine ⟨?_, ?_, ?_, ?_, ?_⟩
  · intro h
    rw [velocityScalingFactorForSingularity, if_pos hdot, if_neg (by push_neg; intro h1; linarith),
      if_neg (by linarith)]
  · intro h1 h2
    rw [velocityScalingFactorForSingularity, if_pos hdot, if_pos ⟨h1, h2⟩]
  · intro h
    rw [velocityScalingFactorForSingularity, if_pos hdot, if_neg (by push_neg; intro h1; linarith),
      if_pos h]
  · intro h
    subst h
    rw [velocityScalingFactorForSingularity, if_pos hdot, if_neg (by push_neg; intro h1; linarith),
      if_neg (by linarith)]
  · intro h1 h2 h3
    rw [velocityScalingFactorForSingularity, velocityScalingFactorForSingularity,
      if_pos hdot, if_pos hdot, if_pos ⟨by linarith, h3⟩, if_pos ⟨h1, by linarith⟩]
    have hpos : 0 < hard - lower := by linarith
    have key : (κ₁ - lower) / (hard - lower) ≤ (κ₂ - lower) / (hard - lower) :=
      (div_le_div_iff_of_pos_right hpos).mpr (by linarith)
    simp only
    linarith

/-- C1 witness: thresholds (30, 100), dot = 1, κ = 65 gives the ramp value ½. -/
theorem C1_amended_witness :
    (velocityScalingFactorForSingularity 30 100 65 1 StatusCode.NO_WARNING).1 = 1 / 2 := by
  have h := (C1_amended 30 100 65 65 65 1 StatusCode.NO_WARNING (by norm_num)
    (by norm_num)).2.1 (by norm_num) (by norm_num)
  rw [h]
  norm_num

/-- C7 counterexample: a JointJog command with the non-NaN component 2, whose
absolute value exceeds 1, still passes validation — the JointJog overload of
checkValidCommand performs no unitless range check (whatever command_in_type
is), where the claim says validation fails for any command with a unitless
component of absolute value above 1. -/
theorem C7_counterexample :
    checkValidCommandJog { stamp := 1, joint_names := ["joint1"], velocities := [some 2] }
      = true ∧ (1 : ℚ) < |(2 : ℚ)| := by
  constructor
  · rfl
  · norm_num

/-- C7 (amended): the TwistStamped validation fails exactly when a component
is NaN or when command_in_type is "unitless" and some component has absolute
value above 1; the JointJog validation fails exactly when some velocity is
NaN — the unitless range check applies only to twist commands. -/
theorem C7_amended (command_in_type : String) (cmd : TwistMsg) (jcmd : JointJogMsg) :
    (checkValidCommandTwist command_in_type cmd = false ↔
      ((isnanQ cmd.linear_x = true ∨ isnanQ cmd.linear_y = true ∨ isnanQ cmd.linear_z = true ∨
        isnanQ cmd.angular_x = true ∨ isnanQ cmd.angular_y = true ∨ isnanQ cmd.angular_z = true) ∨
       (command_in_type = "unitless" ∧
        (twistComponentAbsGtOne cmd.linear_x = true ∨ twistComponentAbsGtOne cmd.linear_y = true ∨
         twistComponentAbsGtOne cmd.linear_z = true ∨ twistComponentAbsGtOne cmd.angular_x = true ∨
         twistComponentAbsGtOne cmd.angular_y = true ∨ twistComponentAbsGtOne cmd.angular_z = true)))) ∧
    (checkValidCommandJog jcmd = false ↔ ∃ v ∈ jcmd.velocities, isnanQ v = true) := by
  constructor
  · have hb : checkValidCommandTwist command_in_type cmd
        = !((isnanQ cmd.linear_x || isnanQ cmd.linear_y || isnanQ cmd.linear_z ||
             isnanQ cmd.angular_x || isnanQ cmd.angular_y || isnanQ cmd.angular_z) ||
            ((command_in_type == "unitless") &&
             (twistComponentAbsGtOne cmd.linear_x || twistComponentAbsGtOne cmd.linear_y ||
              twistComponentAbsGtOne cmd.linear_z || twistComponentAbsGtOne cmd.angular_x ||
              twistComponentAbsGtOne cmd.angular_y || twistComponentAbsGtOne cmd.angular_z))) := by
      unfold checkValidCommandTwist
      cases hA : (isnanQ cmd.linear_x || isnanQ cmd.linear_y || isnanQ cmd.linear_z ||
          isnanQ cmd.angular_x || isnanQ cmd.angular_y || isnanQ cmd.angular_z) <;>
        cases hB : ((command_in_type == "unitless") &&
          (twistComponentAbsGtOne cmd.linear_x || twistComponentAbsGtOne cmd.linear_y ||
           twistComponentAbsGtOne cmd.linear_z || twistComponentAbsGtOne cmd.angular_x ||
           twistComponentAbsGtOne cmd.angular_y || twistComponentAbsGtOne cmd.angular_z)) <;>
        simp [hA, hB]
    rw [hb]
    simp only [Bool.not_eq_false', Bool.or_eq_true, Bool.and_eq_true, beq_iff_eq, or_assoc]
  · unfold checkValidCommandJog
    rw [← Bool.not_eq_true, List.all_eq_true]
    constructor
    · intro h
      by_contra hno
      push_neg at hno
      exact h (fun v hv => by simpa using hno v hv)
    · intro ⟨v, hv, hnan⟩ h
      have := h v hv
      simp [hnan] at this

/-- C9: a command whose header stamp is 0 is stored, updates its nonzero
flag, but never advances the corresponding latest_*_command_stamp_; and with
both copied commands still at stamp 0, the WAITING check
(wait_for_servo_commands_) remains true, so a stamp-0 command alone never
ends the WAITING state. -/
theorem C9_theorem (st : CommandBufferState) (tmsg : TwistMsg) (jmsg : JointJogMsg)
    (ht : tmsg.stamp = 0) (hj : jmsg.stamp = 0) :
    (twistStampedCB st tmsg).latest_twist = some tmsg ∧
    (twistStampedCB st tmsg).latest_twist_nonzero = isNonZeroTwist tmsg ∧
    (twistStampedCB st tmsg).latest_twist_stamp = st.latest_twist_stamp ∧
    (jointCmdCB st jmsg).latest_joint = some jmsg ∧
    (jointCmdCB st jmsg).latest_joint_nonzero = isNonZeroJog jmsg ∧
    (jointCmdCB st jmsg).latest_joint_stamp = st.latest_joint_stamp ∧
    waitForServoCommandsUpdate tmsg jmsg = true := by
  simp [twistStampedCB, jointCmdCB, waitForServoCommandsUpdate, ht, hj]

/-- C9 witness: a concrete stamp-0 twist command leaves the stored twist stamp
at its previous value 5. -/
theorem C9_witness :
    (twistStampedCB
        { latest_twist := none, latest_twist_nonzero := false, latest_twist_stamp := 5,
          latest_joint := none, latest_joint_nonzero := false, latest_joint_stamp := 7,
          new_input_cmd := false }
        { frame_id := "base", stamp := 0, linear_x := some 1, linear_y := some 0,
          linear_z := some 0, angular_x := some 0, angular_y := some 0,
          angular_z := some 0 }).latest_twist_stamp = 5 :=
  (C9_theorem
    { latest_twist := none, latest_twist_nonzero := false, latest_twist_stamp := 5,
      latest_joint := none, latest_joint_nonzero := false, latest_joint_stamp := 7,
      new_input_cmd := false }
    { frame_id := "base", stamp := 0, linear_x := some 1, linear_y := some 0,
      linear_z := some 0, angular_x := some 0, angular_y := some 0, angular_z := some 0 }
    { stamp := 0, joint_names := [], velocities := [] } rfl rfl).2.2.1

/-- C10 counterexample: with new velocities [0, 5] and target velocities
[1, 0], the second joint's target velocity is exactly zero, yet
checkForLaggingMotion is defined (some true): the loop returns at the first
joint (ratio 0/1 < 1) before the zero divisor is ever reached, so "some
target velocity is zero" does not by itself make the quotient undefined. -/
theorem C10_counterexample :
    checkForLaggingMotion [0, 5] [1, 0] = some true ∧
    ([(1 : ℚ), 0].getD 1 0 = 0) ∧
    checkForLaggingMotion [0, 5] [1, 0] ≠ none := by
  have h1 : checkForLaggingMotion [0, 5] [1, 0] = some true := by
    unfold checkForLaggingMotion
    norm_num
  exact ⟨h1, by norm_num, by rw [h1]; simp⟩

/-- C10 (amended): checkForLaggingMotion divides new_velocity by
target_velocity with no guard; the embedding is undefined (none) exactly when
the scan reaches a joint with target velocity zero before any lagging joint —
i.e. iff some index j (within both vectors) has target velocity 0 while every
earlier index has a nonzero target velocity and ratio ≥ 1; under the
precondition that every target velocity is nonzero the function is total and
returns true iff some joint's ratio new_velocity/target_velocity is below 1. -/
theorem C10_amended (nv tv : List ℚ) :
    ((∀ t ∈ tv, t ≠ 0) →
      ∃ b, checkForLaggingMotion nv tv = some b ∧
        (b = true ↔ ∃ p ∈ nv.zip tv, p.1 / p.2 < 1)) ∧
    (checkForLaggingMotion nv tv = none ↔
      ∃ j, j < nv.length ∧ j < tv.length ∧ tv.getD j 0 = 0 ∧
        ∀ i < j, tv.getD i 0 ≠ 0 ∧ ¬(nv.getD i 0 / tv.getD i 0 < 1)) := by
  constructor
  · induction nv generalizing tv with
    | nil =>
        intro h
        cases tv <;> exact ⟨false, rfl, by simp⟩
    | cons a as ih =>
        intro h
        cases tv with
        | nil => exact ⟨false, rfl, by simp⟩
        | cons t ts =>
            have ht : t ≠ 0 := h t (by simp)
            by_cases hr : a / t < 1
            · refine ⟨true, ?_, iff_of_true rfl ⟨(a, t), by simp, hr⟩⟩
              unfold checkForLaggingMotion
              simp [ht, hr]
            · obtain ⟨b, hb, hiff⟩ := ih ts (fun x hx => h x (by simp [hx]))
              refine ⟨b, ?_, ?_⟩
              · unfold checkForLaggingMotion
                simp [ht, hr, hb]
              · rw [hiff]
                constructor
                · intro ⟨p, hp, hplt⟩
                  exact ⟨p, by simp [hp], hplt⟩
                · intro ⟨p, hp, hplt⟩
                  simp only [List.zip_cons_cons, List.mem_cons] at hp
                  rcases hp with hp | hp
                  · exact absurd hplt (by rw [hp]; exact hr)
                  · exact ⟨p, hp, hplt⟩
  · induction nv generalizing tv with
    | nil =>
        cases tv <;> simp [checkForLaggingMotion]
    | cons a as ih =>
        cases tv with
        | nil => simp [checkForLaggingMotion]
        | cons t ts =>
            by_cases ht : t = 0
            · have hl : checkForLaggingMotion (a :: as) (t :: ts) = none := by
                unfold checkForLaggingMotion
                rw [if_pos ht]
              rw [hl]
              constructor
              · intro _
                exact ⟨0, Nat.succ_pos _, Nat.succ_pos _, by simpa using ht,
                  fun i hi => absurd hi (Nat.not_lt_zero i)⟩
              · intro _
                rfl
            · by_cases hr : a / t < 1
              · have hl : checkForLaggingMotion (a :: as) (t :: ts) = some true := by
                  unfold checkForLaggingMotion
                  rw [if_neg ht, if_pos hr]
                rw [hl]
                constructor
                · intro h
                  exact absurd h (by simp)
                · intro ⟨j, hj1, hj2, hz, hall⟩
                  cases j with
                  | zero => exact absurd (by simpa using hz) ht
                  | succ k =>
                      have h0 := hall 0 (Nat.succ_pos k)
                      exact absurd hr (by simpa using h0.2)
              · have hl : checkForLaggingMotion (a :: as) (t :: ts)
                    = checkForLaggingMotion as ts := by
                  conv_lhs => unfold checkForLaggingMotion
                  rw [if_neg ht, if_neg hr]
                rw [hl, ih ts]
                constructor
                · intro ⟨k, hk1, hk2, hz, hall⟩
                  refine ⟨k + 1, Nat.succ_lt_succ hk1, Nat.succ_lt_succ hk2,
                    by simpa using hz, ?_⟩
                  intro i hi
                  cases i with
                  | zero => exact ⟨by simpa using ht, by simpa using hr⟩
                  | succ i2 =>
                      have h2 := hall i2 (Nat.lt_of_succ_lt_succ hi)
                      exact ⟨by simpa using h2.1, by simpa using h2.2⟩
                · intro ⟨j, hj1, hj2, hz, hall⟩
                  cases j with
                  | zero => exact absurd (by simpa using hz) ht
                  | succ k =>
                      refine ⟨k, Nat.lt_of_succ_lt_succ hj1, Nat.lt_of_succ_lt_succ hj2,
                        by simpa using hz, ?_⟩
                      intro i hi
                      have h2 := hall (i + 1) (Nat.succ_lt_succ hi)
                      exact ⟨by simpa using h2.1, by simpa using h2.2⟩

/-- C10 witness: with all target velocities nonzero the check is total ([1]
against [2] is lagging since 1/2 < 1), and a leading zero target velocity is
reached immediately, making the check undefined ([7] against [0]). -/
theorem C10_witness :
    checkForLaggingMotion [1] [2] = some true ∧ checkForLaggingMotion [7] [0] = none := by
  constructor
  · obtain ⟨b, hb, hiff⟩ := (C10_amended [1] [2]).1 (by norm_num)
    have : b = true := hiff.mpr ⟨(1, 2), by norm_num, by norm_num⟩
    rw [this] at hb
    exact hb
  · exact (C10_amended [7] [0]).2.mpr
      ⟨0, by norm_num, by norm_num, by norm_num, fun i hi => absurd hi (Nat.not_lt_zero i)⟩

/-- C4: in an inner-loop iteration of RuckigSmoothing::applySmoothing where
backward (lagging) motion is detected, every joint's target velocity is
multiplied by 0.9 and its target acceleration is recomputed as
(target_vel − new_vel)/Δτ (with the already-scaled target velocity), no
waypoint is emitted and the loop is retried; and the iteration makes
applySmoothing return false exactly when the squared L2 magnitude of the
scaled target-velocity vector falls below 0.01² (rad/s)², i.e. the magnitude
falls below 0.01 rad/s. -/
theorem C4_theorem (ruckig_input : RuckigInput) (velocity_magnitude_sq : ℚ)
    (ruckig_output : RuckigOutput) (res : RuckigResult) (target_waypoint : WaypointState)
    (hlag : checkForLaggingMotion ruckig_output.new_velocity ruckig_input.target_velocity
      = some true) :
    (retractTargetVelocity DEFAULT_RUCKIG_TIMESTEP ruckig_input ruckig_output).target_velocity
      = ruckig_input.target_velocity.map (fun v => v * (9 / 10)) ∧
    (retractTargetVelocity DEFAULT_RUCKIG_TIMESTEP ruckig_input ruckig_output).target_acceleration
      = List.zipWith (fun target_vel new_vel =>
          (target_vel * (9 / 10) - new_vel) / DEFAULT_RUCKIG_TIMESTEP)
        ruckig_input.target_velocity ruckig_output.new_velocity ∧
    (getTargetVelocityMagnitudeSq
        (retractTargetVelocity DEFAULT_RUCKIG_TIMESTEP ruckig_input ruckig_output)
          < MINIMUM_VELOCITY_SEARCH_MAGNITUDE ^ 2 →
      ruckigIterationBody ruckig_input velocity_magnitude_sq ruckig_output res target_waypoint
        = some BodyOutcome.fail) ∧
    (¬getTargetVelocityMagnitudeSq
        (retractTargetVelocity DEFAULT_RUCKIG_TIMESTEP ruckig_input ruckig_output)
          < MINIMUM_VELOCITY_SEARCH_MAGNITUDE ^ 2 →
      ruckigIterationBody ruckig_input velocity_magnitude_sq ruckig_output res target_waypoint
        = some (BodyOutcome.step
            (getNextRuckigInput ruckig_output target_waypoint
              (retractTargetVelocity DEFAULT_RUCKIG_TIMESTEP ruckig_input ruckig_output))
            (getTargetVelocityMagnitudeSq
              (retractTargetVelocity DEFAULT_RUCKIG_TIMESTEP ruckig_input ruckig_output))
            false (decide (res = RuckigResult.Finished)))) := by
  refine ⟨rfl, rfl, ?_, ?_⟩
  · intro hmag
    unfold ruckigIterationBody
    rw [hlag]
    simp only [if_true, if_pos hmag]
  · intro hmag
    unfold ruckigIterationBody
    rw [hlag]
    simp only [if_true, if_neg hmag]
    simp

/-- C4 witness: one joint, target velocity 1, generated velocity 0 (lagging
since 0/1 < 1): the iteration scales the target to 0.9, recomputes the target
acceleration to 900, keeps going (0.81 ≥ 0.0001), emits nothing, and reloads
the target waypoint's state for the retry. -/
theorem C4_witness :
    ruckigIterationBody
        { current_position := [0], current_velocity := [0], current_acceleration := [0],
          target_position := [1], target_velocity := [1], target_acceleration := [0] }
        (DBL_MAX ^ 2)
        { new_position := [1 / 1000], new_velocity := [0], new_acceleration := [0] }
        RuckigResult.Working
        { position := [1], velocity := [1], acceleration := [0] }
      = some (BodyOutcome.step
          { current_position := [1 / 1000], current_velocity := [0],
            current_acceleration := [0], target_position := [1],
            target_velocity := [1], target_acceleration := [0] }
          (81 / 100) false false) := by
  have h := (C4_theorem
    { current_position := [0], current_velocity := [0], current_acceleration := [0],
      target_position := [1], target_velocity := [1], target_acceleration := [0] }
    (DBL_MAX ^ 2)
    { new_position := [1 / 1000], new_velocity := [0], new_acceleration := [0] }
    RuckigResult.Working
    { position := [1], velocity := [1], acceleration := [0] }
    (by unfold checkForLaggingMotion; norm_num)).2.2.2
    (by norm_num [getTargetVelocityMagnitudeSq, retractTargetVelocity,
      MINIMUM_VELOCITY_SEARCH_MAGNITUDE])
  rw [h]
  norm_num [getNextRuckigInput, retractTargetVelocity, getTargetVelocityMagnitudeSq]
  decide

set_option maxHeartbeats 1600000 in
/-- C8: for every 6-row Jacobian, 6-entry delta_x and 6-entry drift mask,
removeDriftDimensions (which iterates rows from the highest index downward
and removes row i together with entry i exactly when drift_dimensions[i] is
true and the matrix still has more than one row) returns the rows whose drift
flag is false, in their original relative order — except that when every flag
is true, the guard leaves exactly the first row — and the result never has
fewer than one row. -/
theorem C8_theorem (b0 b1 b2 b3 b4 b5 : Bool) (r0 r1 r2 r3 r4 r5 : List ℚ)
    (x0 x1 x2 x3 x4 x5 : ℚ) :
    removeDriftDimensions [b0, b1, b2, b3, b4, b5] [r0, r1, r2, r3, r4, r5]
        [x0, x1, x2, x3, x4, x5]
      = (if b0 && b1 && b2 && b3 && b4 && b5 then ([r0], [x0])
         else (keptByDrift [b0, b1, b2, b3, b4, b5] [r0, r1, r2, r3, r4, r5],
               keptByDrift [b0, b1, b2, b3, b4, b5] [x0, x1, x2, x3, x4, x5])) ∧
    1 ≤ (removeDriftDimensions [b0, b1, b2, b3, b4, b5] [r0, r1, r2, r3, r4, r5]
        [x0, x1, x2, x3, x4, x5]).1.length := by
  cases b0 <;> cases b1 <;> cases b2 <;> cases b3 <;> cases b4 <;> cases b5 <;>
    exact ⟨rfl, of_decide_eq_true rfl⟩

/-- C5: the < 2-waypoint and average-segment-duration failure checks behave
as claimed, but the repeated-waypoint loop does not collapse anything: with
two waypoints at the identical position [0] (group distance 0 ≤ 1e-3) the
sequence handed to the step generator still contains that close consecutive
pair, and with two distinct waypoints the loop appends a copy of the first to
the end of the trajectory instead — the code contradicts its own comment
("Remove repeated waypoints with no change in position").  Group distance is
the concrete metric |p₀ − q₀| on the single joint; unwind is the identity. -/
theorem C5_theorem :
    applySmoothingChecks
        (fun a b => |a.position.getD 0 0 - b.position.getD 0 0|) id
        [({ position := [0], velocity := [0], acceleration := [0] }, 0)] = none ∧
    applySmoothingChecks
        (fun a b => |a.position.getD 0 0 - b.position.getD 0 0|) id
        [({ position := [0], velocity := [0], acceleration := [0] }, 0),
         ({ position := [1], velocity := [0], acceleration := [0] }, 1 / 2000)] = none ∧
    removeRepeatedWaypoints
        (fun a b => |a.position.getD 0 0 - b.position.getD 0 0|)
        [({ position := [0], velocity := [0], acceleration := [0] }, 0),
         ({ position := [0], velocity := [0], acceleration := [0] }, 1)]
      = [({ position := [0], velocity := [0], acceleration := [0] }, 0),
         ({ position := [0], velocity := [0], acceleration := [0] }, 1)] ∧
    checkForIdenticalWaypoints
        (fun a b => |a.position.getD 0 0 - b.position.getD 0 0|)
        { position := [0], velocity := [0], acceleration := [0] }
        { position := [0], velocity := [0], acceleration := [0] } = true ∧
    applySmoothingChecks
        (fun a b => |a.position.getD 0 0 - b.position.getD 0 0|) id
        [({ position := [0], velocity := [0], acceleration := [0] }, 0),
         ({ position := [0], velocity := [0], acceleration := [0] }, 1)]
      = some [({ position := [0], velocity := [0], acceleration := [0] }, 0),
              ({ position := [0], velocity := [0], acceleration := [0] }, 1)] ∧
    removeRepeatedWaypoints
        (fun a b => |a.position.getD 0 0 - b.position.getD 0 0|)
        [({ position := [0], velocity := [0], acceleration := [0] }, 0),
         ({ position := [1], velocity := [0], acceleration := [0] }, 1)]
      = [({ position := [0], velocity := [0], acceleration := [0] }, 0),
         ({ position := [1], velocity := [0], acceleration := [0] }, 1),
         ({ position := [0], velocity := [0], acceleration := [0] }, 0)] := by
  refine ⟨?_, ?_, ?_, ?_, ?_, ?_⟩ <;>
    simp [applySmoothingChecks, removeRepeatedWaypoints, checkForIdenticalWaypoints,
      averageSegmentDuration, IDENTICAL_POSITION_EPSILON, DEFAULT_RUCKIG_TIMESTEP,
      List.range_succ] <;> norm_num

/-- C3 counterexample: one joint, the smoother maps the snapshot position 0 to
−1 and publish_period = 1, so the raw halt velocity is −1 with |−1| far above
STOPPED_VELOCITY_EPS; yet filteredHalt snaps the velocities to exactly zero
and sets done_stopping, because the source's stopped test is the signed
comparison v > eps, not |v| ≤ eps as the claim states. -/
theorem C3_counterexample :
    filteredHalt
        { publish_period := 1, command_in_type := "unitless",
          publish_joint_positions := true, publish_joint_velocities := true,
          publish_joint_accelerations := false, joint_limit_margin := 1 / 10,
          halt_all_joints_in_joint_mode := false,
          halt_all_joints_in_cartesian_mode := false,
          lower_singularity_threshold := 30, hard_stop_singularity_threshold := 100 }
        (fun _ => [-1]) 1 { name := ["j1"], position := [0], velocity := [0] }
      = some ([{ positions := [-1], velocities := [0], accelerations := [] }], true) ∧
    ¬(|(-1 : ℚ)| ≤ STOPPED_VELOCITY_EPS) := by
  constructor
  · simp [filteredHalt, rawHaltVelocities, STOPPED_VELOCITY_EPS]
    norm_num
  · norm_num [STOPPED_VELOCITY_EPS]

/-- C3 (amended): when both commands are stale and velocities are published,
filteredHalt emits exactly one trajectory point whose positions are the
original joint snapshot passed through the smoother and whose raw velocities
are (smoothed position − original position)/publish_period; all velocities
are snapped to exactly zero and done_stopping is set to true if and only if
every joint's raw velocity satisfies the signed comparison
v ≤ STOPPED_VELOCITY_EPS (1e-4) — not the absolute-value comparison. -/
theorem C3_amended (p : ServoParams) (smoother : List ℚ → List ℚ)
    (num_joints : ℕ) (orig : JointState)
    (hv : p.publish_joint_velocities = true) :
    filteredHalt p smoother num_joints orig
      = some
          ([{ positions := smoother orig.position,
              velocities :=
                if (rawHaltVelocities p (smoother orig.position) orig num_joints).all
                    (fun v => decide (v ≤ STOPPED_VELOCITY_EPS)) then
                  List.replicate num_joints 0
                else rawHaltVelocities p (smoother orig.position) orig num_joints,
              accelerations :=
                if p.publish_joint_accelerations then
                  (List.range num_joints).map
                    (fun i =>
                      ((if (rawHaltVelocities p (smoother orig.position) orig num_joints).all
                            (fun v => decide (v ≤ STOPPED_VELOCITY_EPS)) then
                          List.replicate num_joints (0 : ℚ)
                        else rawHaltVelocities p (smoother orig.position) orig
                          num_joints).getD i 0
                        - orig.velocity.getD i 0) / p.publish_period)
                else [] }],
           (rawHaltVelocities p (smoother orig.position) orig num_joints).all
             (fun v => decide (v ≤ STOPPED_VELOCITY_EPS))) ∧
    ((rawHaltVelocities p (smoother orig.position) orig num_joints).all
        (fun v => decide (v ≤ STOPPED_VELOCITY_EPS)) = true ↔
      ∀ v ∈ rawHaltVelocities p (smoother orig.position) orig num_joints,
        v ≤ STOPPED_VELOCITY_EPS) := by
  constructor
  · unfold filteredHalt
    rw [hv]
    simp
  · simp [List.all_eq_true]

/-- C3 witness: one joint, smoother shifting positions by +1, period 1: the
raw velocity 1 exceeds 1e-4, so the emitted point keeps velocity 1 and
done_stopping is false, and the acceleration is (1 − 1)/1 = 0 against the
snapshot velocity 1. -/
theorem C3_witness :
    filteredHalt
        { publish_period := 1, command_in_type := "unitless",
          publish_joint_positions := true, publish_joint_velocities := true,
          publish_joint_accelerations := true, joint_limit_margin := 1 / 10,
          halt_all_joints_in_joint_mode := false,
          halt_all_joints_in_cartesian_mode := false,
          lower_singularity_threshold := 30, hard_stop_singularity_threshold := 100 }
        (fun l => l.map (fun x => x + 1)) 1 { name := ["j1"], position := [0], velocity := [1] }
      = some ([{ positions := [1], velocities := [1], accelerations := [0] }], false) := by
  have h := (C3_amended
    { publish_period := 1, command_in_type := "unitless",
      publish_joint_positions := true, publish_joint_velocities := true,
      publish_joint_accelerations := true, joint_limit_margin := 1 / 10,
      halt_all_joints_in_joint_mode := false,
      halt_all_joints_in_cartesian_mode := false,
      lower_singularity_threshold := 30, hard_stop_singularity_threshold := 100 }
    (fun l => l.map (fun x => x + 1)) 1 { name := ["j1"], position := [0], velocity := [1] }
    rfl).1
  rw [h]
  norm_num [rawHaltVelocities, STOPPED_VELOCITY_EPS]
  simp [List.range_succ]

/-- With all joint velocities zero, no joint is a position-limit halt
candidate (both velocity-direction tests are strict). -/
theorem enforcePositionLimitsGo_zero_vel (p : ServoParams) (js : JointState)
    (hvel : ∀ i : ℕ, js.velocity[i]?.getD 0 = 0) :
    ∀ (active : List JointModel) (prev : ℚ), enforcePositionLimitsGo p js prev active = [] := by
  intro active
  induction active with
  | nil => intro prev; rfl
  | cons j rest ih =>
      intro prev
      unfold enforcePositionLimitsGo
      cases hb : j.bounds with
      | none => simp [hb, ih]
      | some b => simp [hb, hvel, ih]

/-- C2 counterexample: collision_velocity_scale = 0 does set
HALT_FOR_COLLISION, but the outgoing velocity is 1, not 0: the smoothing
plugin (here: shift positions by +1) runs after the zeroed delta is applied,
and the outgoing velocities are recomputed from the smoothed positions. -/
theorem C2_counterexample :
    (internalServoUpdate
        { publish_period := 1, command_in_type := "unitless",
          publish_joint_positions := true, publish_joint_velocities := true,
          publish_joint_accelerations := true, joint_limit_margin := 1 / 10,
          halt_all_joints_in_joint_mode := false,
          halt_all_joints_in_cartesian_mode := false,
          lower_singularity_threshold := 30, hard_stop_singularity_threshold := 100 }
        (fun l => l.map (fun x => x + 1)) id [{ name := "j1", bounds := none }]
        { name := ["j1"], position := [0], velocity := [0] } 0
        StatusCode.NO_WARNING [5] ServoType.JOINT_SPACE).status
      = StatusCode.HALT_FOR_COLLISION ∧
    (internalServoUpdate
        { publish_period := 1, command_in_type := "unitless",
          publish_joint_positions := true, publish_joint_velocities := true,
          publish_joint_accelerations := true, joint_limit_margin := 1 / 10,
          halt_all_joints_in_joint_mode := false,
          halt_all_joints_in_cartesian_mode := false,
          lower_singularity_threshold := 30, hard_stop_singularity_threshold := 100 }
        (fun l => l.map (fun x => x + 1)) id [{ name := "j1", bounds := none }]
        { name := ["j1"], position := [0], velocity := [0] } 0
        StatusCode.NO_WARNING [5] ServoType.JOINT_SPACE).traj
      = [{ positions := [1], velocities := [1], accelerations := [0] }] ∧
    ((1 : ℚ) ≠ 0) := by
  refine ⟨?_, ?_, by norm_num⟩ <;>
    simp [internalServoUpdate, applyJointUpdate, collisionStatusUpdate,
      positionLimitHaltStage, enforcePositionLimits, enforcePositionLimitsGo,
      satisfiesPositionBounds, suddenHalt, composeJointTrajMessage]

/-- C2 (amended): in internalServoUpdate the joint delta is multiplied by
collision_velocity_scale (the product is then fed to the velocity-limit pass,
whose result the source never reads again); 0 < scale < 1 sets the status to
DECELERATE_FOR_COLLISION at the collision stage; and when scale = 0 the cycle
completes with status HALT_FOR_COLLISION and — provided the smoothing filter
leaves the joint positions unchanged — every velocity in the outgoing
trajectory point is 0. -/
theorem C2_amended (p : ServoParams) (smoother : List ℚ → List ℚ)
    (evl : List ℚ → List ℚ) (active : List JointModel) (orig : JointState)
    (cs : ℚ) (st : StatusCode) (delta : List ℚ) (ty : ServoType)
    (hlen : orig.position.length = delta.length)
    (hlenv : orig.velocity.length = orig.position.length)
    (hsm : smoother orig.position = orig.position) :
    ((internalServoUpdate p smoother evl active orig cs st delta ty).ok = true ∧
     (internalServoUpdate p smoother evl active orig cs st delta ty).delta_theta
       = evl (delta.map (fun d => d * cs))) ∧
    (0 < cs → cs < 1 →
      collisionStatusUpdate cs st = StatusCode.DECELERATE_FOR_COLLISION) ∧
    (cs = 0 →
      (internalServoUpdate p smoother evl active orig cs st delta ty).status
        = StatusCode.HALT_FOR_COLLISION ∧
      (internalServoUpdate p smoother evl active orig cs st delta ty).traj
        = [{ positions := if p.publish_joint_positions then orig.position else [],
             velocities :=
               if p.publish_joint_velocities then
                 List.replicate orig.position.length (0 : ℚ)
               else [],
             accelerations :=
               if p.publish_joint_accelerations then
                 List.replicate active.length (0 : ℚ)
               else [] }]) := by
  have hcheck : ¬(orig.position.length ≠ (delta.map (fun d => d * cs)).length ∨
      orig.velocity.length ≠ orig.position.length) := by
    push_neg
    exact ⟨by simp [hlen], hlenv⟩
  refine ⟨?_, ?_, ?_⟩
  · simp only [internalServoUpdate, applyJointUpdate]
    rw [if_neg hcheck]
    exact ⟨rfl, rfl⟩
  · intro h1 h2
    unfold collisionStatusUpdate
    rw [if_pos ⟨h1, h2⟩]
  · intro hcs
    subst hcs
    have hpos1 : List.zipWith (fun pos d => pos + d) orig.position
        (delta.map (fun d => d * 0)) = orig.position :=
      zipWith_add_mapZero _ _ hlen
    have happ : applyJointUpdate p smoother orig (delta.map (fun d => d * 0)) orig
        = some { orig with
                 position := orig.position
                 velocity := List.replicate orig.position.length 0 } := by
      simp only [applyJointUpdate]
      rw [if_neg hcheck]
      simp only [hpos1, hsm, zipWith_sub_div_self]
    have hzero : ∀ i : ℕ,
        ({ orig with
           position := orig.position
           velocity := List.replicate orig.position.length (0 : ℚ) } :
            JointState).velocity[i]?.getD 0 = 0 := by
      intro i
      exact getD_replicate_zero _ i
    have hhalt : enforcePositionLimits p
        { orig with
          position := orig.position
          velocity := List.replicate orig.position.length 0 } active = [] :=
      enforcePositionLimitsGo_zero_vel p _ hzero active 0
    simp only [internalServoUpdate]
    rw [happ]
    simp only [positionLimitHaltStage]
    rw [hhalt]
    simp [collisionStatusUpdate, composeJointTrajMessage]

/-- C2 witness: identity smoother, scale 0, one unbounded joint: the cycle
reports HALT_FOR_COLLISION and the outgoing point carries velocity 0. -/
theorem C2_witness :
    (internalServoUpdate
        { publish_period := 1, command_in_type := "unitless",
          publish_joint_positions := true, publish_joint_velocities := true,
          publish_joint_accelerations := true, joint_limit_margin := 1 / 10,
          halt_all_joints_in_joint_mode := false,
          halt_all_joints_in_cartesian_mode := false,
          lower_singularity_threshold := 30, hard_stop_singularity_threshold := 100 }
        id id [{ name := "j1", bounds := none }]
        { name := ["j1"], position := [0], velocity := [0] } 0
        StatusCode.NO_WARNING [5] ServoType.JOINT_SPACE).status
      = StatusCode.HALT_FOR_COLLISION := by
  have h := ((C2_amended
    { publish_period := 1, command_in_type := "unitless",
      publish_joint_positions := true, publish_joint_velocities := true,
      publish_joint_accelerations := true, joint_limit_margin := 1 / 10,
      halt_all_joints_in_joint_mode := false,
      halt_all_joints_in_cartesian_mode := false,
      lower_singularity_threshold := 30, hard_stop_singularity_threshold := 100 }
    id id [{ name := "j1", bounds := none }]
    { name := ["j1"], position := [0], velocity := [0] } 0
    StatusCode.NO_WARNING [5] ServoType.JOINT_SPACE rfl rfl rfl).2.2 rfl).1
  exact h

/-- A found index is in range and points at the searched name. -/
theorem findFirstIdx_spec (s : String) :
    ∀ (l : List String) (c : ℕ), findFirstIdx s l = some c → c < l.length ∧ l.getD c "" = s := by
  intro l
  induction l with
  | nil => intro c h; simp [findFirstIdx] at h
  | cons n rest ih =>
      intro c h
      unfold findFirstIdx at h
      by_cases hn : n = s
      · rw [if_pos hn] at h
        cases h
        exact ⟨by simp, by simpa using hn⟩
      · rw [if_neg hn] at h
        cases hx : findFirstIdx s rest with
        | none => rw [hx] at h; simp at h
        | some d =>
            rw [hx] at h
            simp at h
            obtain ⟨hlt, hget⟩ := ih d hx
            subst h
            exact ⟨by simpa using Nat.succ_lt_succ hlt, by simpa using hget⟩

/-- A present name is found. -/
theorem findFirstIdx_mem (s : String) :
    ∀ l : List String, s ∈ l → ∃ c, findFirstIdx s l = some c := by
  intro l
  induction l with
  | nil => intro h; simp at h
  | cons n rest ih =>
      intro h
      unfold findFirstIdx
      by_cases hn : n = s
      · exact ⟨0, by rw [if_pos hn]⟩
      · have hs : s ∈ rest := by
          rcases List.mem_cons.mp h with h1 | h1
          · exact absurd h1.symm hn
          · exact h1
        obtain ⟨c, hc⟩ := ih hs
        exact ⟨c + 1, by rw [if_neg hn, hc]; rfl⟩

/-- With duplicate-free names, looking up the name at index i finds i. -/
theorem findFirstIdx_nodup :
    ∀ l : List String, l.Nodup → ∀ i, i < l.length → findFirstIdx (l.getD i "") l = some i := by
  intro l
  induction l with
  | nil => intro _ i hi; simp at hi
  | cons n rest ih =>
      intro hnd i hi
      cases i with
      | zero => unfold findFirstIdx; simp
      | succ j =>
          have hj : j < rest.length := by simpa using hi
          have hmem : rest.getD j "" ∈ rest := by
            rw [List.getD_eq_getElem?_getD, List.getElem?_eq_getElem hj]
            exact List.getElem_mem hj
          have hne : n ≠ rest.getD j "" := by
            intro he
            exact (List.nodup_cons.mp hnd).1 (he ▸ hmem)
          rw [List.getD_cons_succ]
          unfold findFirstIdx
          rw [if_neg hne, ih (List.nodup_cons.mp hnd).2 j hj]
          rfl

/-- Setting index i and reading it back (in range). -/
theorem getD_set_self (l : List ℚ) (i : ℕ) (a : ℚ) (h : i < l.length) :
    (l.set i a).getD i 0 = a := by
  simp [List.getD_eq_getElem?_getD, List.getElem?_set_self, h]

/-- Setting one index leaves the others unchanged. -/
theorem getD_set_ne (l : List ℚ) (c i : ℕ) (a : ℚ) (h : c ≠ i) :
    (l.set c a).getD i 0 = l.getD i 0 := by
  simp [List.getD_eq_getElem?_getD, List.getElem?_set_ne h]

/-- suddenHaltOne never touches the name list. -/
theorem suddenHaltOne_name (orig js : JointState) (j : JointModel) :
    (suddenHaltOne orig js j).name = js.name := by
  unfold suddenHaltOne
  cases hfi : findFirstIdx j.name js.name <;> rfl

/-- suddenHaltOne preserves the position length. -/
theorem suddenHaltOne_position_length (orig js : JointState) (j : JointModel) :
    (suddenHaltOne orig js j).position.length = js.position.length := by
  unfold suddenHaltOne
  cases hfi : findFirstIdx j.name js.name <;> simp [List.length_set]

/-- suddenHaltOne preserves the velocity length. -/
theorem suddenHaltOne_velocity_length (orig js : JointState) (j : JointModel) :
    (suddenHaltOne orig js j).velocity.length = js.velocity.length := by
  unfold suddenHaltOne
  cases hfi : findFirstIdx j.name js.name <;> simp [List.length_set]

/-- One loop step of enforcePositionLimits, when the joint's name is found at
index c: the step is exactly the per-joint candidate test and the threaded
angle becomes the found position. -/
theorem enforcePositionLimitsGo_cons_found (p : ServoParams) (js : JointState)
    (prev : ℚ) (j : JointModel) (rest : List JointModel) (c : ℕ)
    (hc : findFirstIdx j.name js.name = some c) :
    enforcePositionLimitsGo p js prev (j :: rest)
      = (if positionLimitCandidate p js j = true then [j] else [])
          ++ enforcePositionLimitsGo p js (js.position.getD c 0) rest := by
  simp only [enforcePositionLimitsGo, positionLimitCandidate, hc, Option.getD_some]

/-- The loop of enforcePositionLimits computes a filter by the per-joint
candidate test, as long as every active joint's name occurs in the joint
state (so the threaded previous angle is never consulted). -/
theorem enforcePositionLimitsGo_eq_filter (p : ServoParams) (js : JointState) :
    ∀ active : List JointModel, (∀ j ∈ active, j.name ∈ js.name) →
      ∀ prev, enforcePositionLimitsGo p js prev active
        = active.filter (positionLimitCandidate p js) := by
  intro active
  induction active with
  | nil => intro _ _; rfl
  | cons j rest ih =>
      intro hmem prev
      obtain ⟨c, hc⟩ := findFirstIdx_mem j.name js.name (hmem j (List.mem_cons_self j rest))
      rw [enforcePositionLimitsGo_cons_found p js prev j rest c hc, List.filter_cons,
        ih (fun x hx => hmem x (List.mem_cons_of_mem j hx))]
      by_cases hcd : positionLimitCandidate p js j = true
      · simp [hcd]
      · simp [hcd]

/-- The per-joint candidate test, characterised: with the joint's name found
at index c, the joint is a candidate iff it has defined bounds and its
velocity pushes further toward a bound whose margin band contains the
position (the outer narrowed-bounds check is implied by the inner one). -/
theorem positionLimitCandidate_iff (p : ServoParams) (js : JointState)
    (j : JointModel) (c : ℕ) (hc : findFirstIdx j.name js.name = some c) :
    positionLimitCandidate p js j = true ↔
      ∃ b : ℚ × ℚ, j.bounds = some b ∧
        ((js.velocity.getD c 0 < 0 ∧ js.position.getD c 0 < b.1 + p.joint_limit_margin) ∨
         (0 < js.velocity.getD c 0 ∧ b.2 - p.joint_limit_margin < js.position.getD c 0)) := by
  unfold positionLimitCandidate satisfiesPositionBounds
  rw [hc]
  cases hb : j.bounds with
  | none => simp
  | some b =>
      simp only [Option.getD_some, Option.some_inj, decide_eq_true_eq]
      constructor
      · intro h
        split_ifs at h with hs
        refine ⟨b, rfl, ?_⟩
        simpa using h
      · intro ⟨b2, hb2, hP⟩
        subst hb2
        rw [if_neg]
        · simpa using hP
        · simp only [decide_eq_true_eq, not_and, not_le]
          intro h1
          rcases hP with ⟨hv, ha⟩ | ⟨hv, ha⟩
          · linarith
          · linarith

/-- suddenHalt, read at one index i: if some halted joint carries the name at
index i (names duplicate-free, lists aligned), the position there is reset to
the snapshot and the velocity to 0; if no halted joint carries that name,
both entries are untouched. -/
theorem suddenHalt_getD (orig : JointState) (i : ℕ) :
    ∀ (L : List JointModel) (js : JointState),
      js.name.Nodup → js.position.length = js.name.length →
      js.velocity.length = js.name.length → i < js.name.length →
      ((∃ j ∈ L, j.name = js.name.getD i "") →
        (suddenHalt orig js L).position.getD i 0 = orig.position.getD i 0 ∧
        (suddenHalt orig js L).velocity.getD i 0 = 0) ∧
      ((∀ j ∈ L, j.name ≠ js.name.getD i "") →
        (suddenHalt orig js L).position.getD i 0 = js.position.getD i 0 ∧
        (suddenHalt orig js L).velocity.getD i 0 = js.velocity.getD i 0) := by
  intro L
  induction L with
  | nil =>
      intro js _ _ _ _
      exact ⟨fun ⟨j, hj, _⟩ => absurd hj (List.not_mem_nil j), fun _ => ⟨rfl, rfl⟩⟩
  | cons j L2 ih =>
      intro js hnd hpl hvl hi
      have hname1 := suddenHaltOne_name orig js j
      have hfold : suddenHalt orig js (j :: L2)
          = suddenHalt orig (suddenHaltOne orig js j) L2 := rfl
      have hnd1 : (suddenHaltOne orig js j).name.Nodup := by rw [hname1]; exact hnd
      have hpl1 : (suddenHaltOne orig js j).position.length
          = (suddenHaltOne orig js j).name.length := by
        rw [hname1, suddenHaltOne_position_length, hpl]
      have hvl1 : (suddenHaltOne orig js j).velocity.length
          = (suddenHaltOne orig js j).name.length := by
        rw [hname1, suddenHaltOne_velocity_length, hvl]
      have hi1 : i < (suddenHaltOne orig js j).name.length := by rw [hname1]; exact hi
      have IH := ih (suddenHaltOne orig js j) hnd1 hpl1 hvl1 hi1
      have hgd : (suddenHaltOne orig js j).name.getD i "" = js.name.getD i "" := by
        rw [hname1]
      by_cases hjm : j.name = js.name.getD i ""
      · have hfi : findFirstIdx j.name js.name = some i := by
          rw [hjm]; exact findFirstIdx_nodup js.name hnd i hi
        have h1p : (suddenHaltOne orig js j).position.getD i 0
            = orig.position.getD i 0 := by
          unfold suddenHaltOne
          rw [hfi]
          exact getD_set_self _ _ _ (by rw [hpl]; exact hi)
        have h1v : (suddenHaltOne orig js j).velocity.getD i 0 = 0 := by
          unfold suddenHaltOne
          rw [hfi]
          exact getD_set_self _ _ _ (by rw [hvl]; exact hi)
        constructor
        · intro _
          by_cases hex : ∃ j2 ∈ L2, j2.name = (suddenHaltOne orig js j).name.getD i ""
          · rw [hfold]
            exact IH.1 hex
          · push_neg at hex
            have h2 := IH.2 hex
            rw [hfold]
            exact ⟨h2.1.trans h1p, h2.2.trans h1v⟩
        · intro hall
          exact absurd hjm (hall j (List.mem_cons_self j L2))
      · have h1p : (suddenHaltOne orig js j).position.getD i 0
            = js.position.getD i 0 := by
          unfold suddenHaltOne
          cases hfi : findFirstIdx j.name js.name with
          | none => rfl
          | some cc =>
              have hspec := findFirstIdx_spec j.name js.name cc hfi
              have hci : cc ≠ i := by
                intro he
                apply hjm
                rw [← hspec.2, he]
              exact getD_set_ne _ _ _ _ hci
        have h1v : (suddenHaltOne orig js j).velocity.getD i 0
            = js.velocity.getD i 0 := by
          unfold suddenHaltOne
          cases hfi : findFirstIdx j.name js.name with
          | none => rfl
          | some cc =>
              have hspec := findFirstIdx_spec j.name js.name cc hfi
              have hci : cc ≠ i := by
                intro he
                apply hjm
                rw [← hspec.2, he]
              exact getD_set_ne _ _ _ _ hci
        constructor
        · intro ⟨j2, hj2m, hj2n⟩
          rcases List.mem_cons.mp hj2m with he | hm
          · exact absurd (by rw [← he]; exact hj2n) hjm
          · rw [hfold]
            exact IH.1 ⟨j2, hm, by rw [hgd]; exact hj2n⟩
        · intro hall
          have h2 := IH.2 (fun j2 hj2 => by
            rw [hgd]; exact hall j2 (List.mem_cons_of_mem j hj2))
          rw [hfold]
          exact ⟨h2.1.trans h1p, h2.2.trans h1v⟩

/-- C6: after the position update (joint names duplicate-free and aligned
with the active joints), (a) a joint is selected for halting iff it has
defined position bounds and its position is inside the joint_limit_margin
band of a bound with its pending velocity pointing further past it
(velocity < 0 near the lower bound, velocity > 0 near the upper bound);
(b) when the halt set is non-empty the status becomes JOINT_BOUND and, with
the mode's halt-all flag false, only the selected joints are halted,
otherwise all active joints are; (c) halting a joint resets its position to
the pre-update snapshot and zeroes its velocity, and leaves non-halted
entries untouched. -/
theorem C6_theorem (p : ServoParams) (active : List JointModel)
    (js orig : JointState) (ty : ServoType) (st : StatusCode)
    (L : List JointModel) (i : ℕ)
    (hname : js.name = active.map JointModel.name)
    (hnd : js.name.Nodup)
    (hpl : js.position.length = js.name.length)
    (hvl : js.velocity.length = js.name.length)
    (hi : i < active.length) :
    ((active.get ⟨i, hi⟩ ∈ enforcePositionLimits p js active) ↔
      (∃ b : ℚ × ℚ, (active.get ⟨i, hi⟩).bounds = some b ∧
        ((js.velocity.getD i 0 < 0 ∧ js.position.getD i 0 < b.1 + p.joint_limit_margin) ∨
         (0 < js.velocity.getD i 0 ∧ b.2 - p.joint_limit_margin < js.position.getD i 0)))) ∧
    (enforcePositionLimits p js active ≠ [] →
      positionLimitHaltStage p active orig js ty st
        = (suddenHalt orig js
            (if (ty = ServoType.JOINT_SPACE ∧ ¬p.halt_all_joints_in_joint_mode) ∨
                (ty = ServoType.CARTESIAN_SPACE ∧ ¬p.halt_all_joints_in_cartesian_mode)
             then enforcePositionLimits p js active else active),
           StatusCode.JOINT_BOUND)) ∧
    (((∃ j ∈ L, j.name = js.name.getD i "") →
        (suddenHalt orig js L).position.getD i 0 = orig.position.getD i 0 ∧
        (suddenHalt orig js L).velocity.getD i 0 = 0) ∧
     ((∀ j ∈ L, j.name ≠ js.name.getD i "") →
        (suddenHalt orig js L).position.getD i 0 = js.position.getD i 0 ∧
        (suddenHalt orig js L).velocity.getD i 0 = js.velocity.getD i 0)) := by
  have hlen_eq : js.name.length = active.length := by
    rw [hname, List.length_map]
  have hi2 : i < js.name.length := by rw [hlen_eq]; exact hi
  have hmem : ∀ j ∈ active, j.name ∈ js.name := fun j hj => by
    rw [hname]; exact List.mem_map_of_mem _ hj
  have hfilter : enforcePositionLimits p js active
      = active.filter (positionLimitCandidate p js) :=
    enforcePositionLimitsGo_eq_filter p js active hmem 0
  have hgdname : js.name.getD i "" = (active.get ⟨i, hi⟩).name := by
    rw [hname]
    simp [List.getD_eq_getElem?_getD, List.getElem?_map, List.getElem?_eq_getElem hi]
  have hfi : findFirstIdx (active.get ⟨i, hi⟩).name js.name = some i := by
    rw [← hgdname]
    exact findFirstIdx_nodup js.name hnd i hi2
  refine ⟨?_, ?_, ?_⟩
  · rw [hfilter, List.mem_filter]
    have hmem_i : active.get ⟨i, hi⟩ ∈ active := List.get_mem active i hi
    constructor
    · intro ⟨_, hcand⟩
      exact (positionLimitCandidate_iff p js _ i hfi).mp hcand
    · intro h
      exact ⟨hmem_i, (positionLimitCandidate_iff p js _ i hfi).mpr h⟩
  · intro h
    simp only [positionLimitHaltStage]
    rw [if_neg h]
    split_ifs <;> rfl
  · exact suddenHalt_getD orig i L js hnd hpl hvl hi2

/-- C6 witness: joint j1 with bounds (−1, 1), margin 0.1, position 0.95 and
velocity +1 is a halt candidate; the unbounded j2 at rest is not. -/
theorem C6_witness :
    ({ name := "j1", bounds := some (-1, 1) } : JointModel) ∈
      enforcePositionLimits
        { publish_period := 1, command_in_type := "unitless",
          publish_joint_positions := true, publish_joint_velocities := true,
          publish_joint_accelerations := false, joint_limit_margin := 1 / 10,
          halt_all_joints_in_joint_mode := false,
          halt_all_joints_in_cartesian_mode := false,
          lower_singularity_threshold := 30, hard_stop_singularity_threshold := 100 }
        { name := ["j1", "j2"], position := [95 / 100, 0], velocity := [1, 0] }
        [{ name := "j1", bounds := some (-1, 1) }, { name := "j2", bounds := none }] := by
  have h := (C6_theorem
    { publish_period := 1, command_in_type := "unitless",
      publish_joint_positions := true, publish_joint_velocities := true,
      publish_joint_accelerations := false, joint_limit_margin := 1 / 10,
      halt_all_joints_in_joint_mode := false,
      halt_all_joints_in_cartesian_mode := false,
      lower_singularity_threshold := 30, hard_stop_singularity_threshold := 100 }
    [{ name := "j1", bounds := some (-1, 1) }, { name := "j2", bounds := none }]
    { name := ["j1", "j2"], position := [95 / 100, 0], velocity := [1, 0] }
    { name := ["j1", "j2"], position := [9 / 10, 0], velocity := [0, 0] }
    ServoType.JOINT_SPACE StatusCode.NO_WARNING [] 0 rfl (by simp) rfl rfl
    (by norm_num)).1
  exact h.mpr ⟨(-1, 1), rfl, Or.inr ⟨by norm_num, by norm_num⟩⟩
